import Mathlib

/-! Shallow embedding of the grammar transpiler in `from-pygments.py`: the
regex dialect translator (`bygroup_translator` rewriting), the token resolver
(`regex_to_rule`), the push/pop region compiler and state-machine walker
(`genrulelines`), the per-language file text (`genlang`), and the language
lookup-table construction (`add_to_lang_map` / `write_lang_map`).

Python strings are modelled by `String`, working on the underlying character
list so every operation is kernel-computable.  Tokens are modelled by their
dotted display string (Python `str(token)`); callables carried as tokens are
modelled as tagged variants.  External collaborators (pygments lexer loading,
the exrex sample generator, file IO) are outside the embedding: the using
callback resolution of `token_from_using`, which invokes exrex and a
sub-lexer, is modelled by the resolved token name it produces. -/

/-- Python `s[n:]` (character based). -/
def pyDrop (s : String) (n : Nat) : String := String.mk (s.data.drop n)

/-- Python `s[:-n]` (character based; empty result when `n` exceeds the length). -/
def pyDropRight (s : String) (n : Nat) : String := String.mk (s.data.take (s.data.length - n))

/-- Python `s.startswith(pre)`. -/
def pyStartsWith (s pre : String) : Bool := pre.data.isPrefixOf s.data

/-- Python `s.endswith(suf)`. -/
def pyEndsWith (s suf : String) : Bool := suf.data.isSuffixOf s.data

/-- Python `needle in hay` for strings. -/
def strContains (hay needle : String) : Bool := hay.data.tails.any (fun t => needle.data.isPrefixOf t)

/-- One pass of Python `str.replace(needle, repl)` on character lists: scan
left to right, replacing non-overlapping occurrences.  `skip` counts the
characters of a just-matched needle still to be consumed without copying.
Only called with a non-empty needle (all needles in the source are). -/
def replaceAux (nd repl : List Char) : Nat → List Char → List Char
  | _, [] => []
  | n+1, _ :: cs => replaceAux nd repl n cs
  | 0, c :: cs =>
    if nd ≠ [] ∧ nd.isPrefixOf (c :: cs)
    then repl ++ replaceAux nd repl (nd.length - 1) cs
    else c :: replaceAux nd repl 0 cs

/-- Python `s.replace(nd, repl)` (all non-overlapping occurrences, left to right). -/
def pyReplace (s nd repl : String) : String := String.mk (replaceAux nd.data repl.data 0 s.data)

/-- `quote_safe` (from-pygments.py:23-24): `s.replace("'", r"\x27")`.  The
needle is the single-quote character; the replacement is the four characters
backslash, `x`, `2`, `7`. -/
def quoteSafe (s : String) : String := pyReplace s "\x27" "\\x27"

/-- `token_to_rulename` (from-pygments.py:27-28): `str(token).replace(".", "_")`;
the argument is the token's display string. -/
def tokenToRulename (t : String) : String := pyReplace t "." "_"

/-- Helper of `top_level_groups` (from-pygments.py:31-44): scans the pattern
keeping a nesting level (an `Int`: the Python counter may go negative on a
stray close paren) and the current group accumulator; a group is closed when
a `)` returns the level to zero.  Characters after the last closed group are
discarded, exactly as in the source. -/
def tlgAux (s : List Char) (level : Int) (g : List Char) : List (List Char) :=
  match s with
  | [] => []
  | c :: cs =>
    let g2 := g ++ [c]
    if c = ')' then
      if level - 1 = 0 then g2 :: tlgAux cs (level - 1) []
      else tlgAux cs (level - 1) g2
    else if c = '(' then tlgAux cs (level + 1) g2
    else tlgAux cs level g2

/-- `top_level_groups` (from-pygments.py:31-44). -/
def topLevelGroups (s : String) : List String := (tlgAux s.data 0 []).map String.mk

/-- Python `"  " * level`: the walker's indentation. -/
def indentStr : Nat → String
  | 0 => ""
  | n+1 => "  " ++ indentStr n

/-- Truthiness of `str.strip()` as used by `filter(str.strip, lines)`
(from-pygments.py:225): a line is dropped iff it is all whitespace. -/
def isBlank (s : String) : Bool := s.data.all Char.isWhitespace

/-- Python `s.lstrip('^')` (from-pygments.py:167). -/
def dropCarets (s : String) : String := String.mk (s.data.dropWhile (fun c => c = '^'))

/-- Python `action.partition(":")[2]` (from-pygments.py:220): the text after
the first colon, or empty when there is none. -/
def afterColon (s : String) : String := String.mk ((s.data.dropWhile (fun c => c ≠ ':')).drop 1)

/-- Python `filename.rpartition(".")[2]` (from-pygments.py:247): the text after
the last dot; the whole string when there is no dot. -/
def extOf (s : String) : String := String.mk ((s.data.reverse.takeWhile (fun c => c ≠ '.')).reverse)

/-- Python `s.lower()` restricted to ASCII, which covers every name, alias and
extension the source feeds it. -/
def pyLower (s : String) : String := String.mk (s.data.map Char.toLower)

/-- Fatal errors of the translation (§7 of the spec; Python exceptions).
`budgetExhausted` is model-only: the Lean embedding runs `genrulelines` on an
explicit recursion budget because the Python source has no recursion cap at
all — a state-reference cycle makes the Python function recurse without bound,
which the model renders as exhausting every finite budget (see the C6
theorems). -/
inductive TransErr where
  | budgetExhausted
  | unsupportedConstruct (rgx offending : String)
  | unknownCallable (qualname : String)
  | missingState (stateKey : String)
  | unrecognized
deriving DecidableEq, Repr

/-- One closure argument of a `bygroups(...)` callback (from-pygments.py:97-105):
a pygments token (`token in Token`), a `using(...)` callback — whose
sample-based resolution via `token_from_using` is external (exrex plus a
sub-lexer call) and is modelled by the token name it resolves to — or any
other value, which the source loop silently skips. -/
inductive TokArg where
  | inToken (name : String)
  | usingCb (resolved : String)
  | otherArg
deriving DecidableEq, Repr

/-- A rule's token entry.  `plain` is an ordinary pygments token, carried as
its dotted display string.  `bygroup` is a callable whose qualname is in
`CALLABLE_RULES` (a `bygroups` callback) with its closure arguments; `reprS`
stands for Python `str(callback)` (only used if such a token reaches
`token_to_rulename`, where the source would embed the interpreter repr).
`otherCallable` is a callable with any other qualname: `CALLABLE_RULES[name]`
raises `KeyError` on it. -/
inductive Tok where
  | plain (name : String)
  | bygroup (args : List TokArg) (reprS : String)
  | otherCallable (qualname : String)
deriving DecidableEq, Repr

/-- One entry of a pygments state's rule list (from-pygments.py:176-224):
a bare string (include), a 2-tuple `(regex, token)`, a 3-tuple
`(regex, token, action)` where the action is a state name or a `#push` /
`#pop...` marker, or a `default(state)` instance.  `words` instances as
patterns are unwrapped to their regex upstream (from-pygments.py:126-127, a
pygments helper) so patterns arrive as plain strings. -/
inductive Elem where
  | strE (target : String)
  | pairE (rgx : String) (token : Tok)
  | tripleE (rgx : String) (token : Tok) (action : String)
  | defaultE (target : String)
deriving DecidableEq, Repr

/-- `lexer.tokens`: the state map of the active lexer, as an association list
(keyed lookups model the Python dict). -/
abbrev Lexer := List (String × List Elem)

/-- `UNCAPTURED_GROUP_TRANSLATORS` (from-pygments.py:78-85), in source order. -/
def uncapturedGroupTranslators : List (String × String) :=
  [("(?!:)", "[^:]"),
   ("(\\.\\.\\.)?", "(|\\.\\.\\.)"),
   ("((?:[$a-zA-Z_]\\w*|\\.)+)", "([$a-zA-Z_0-9.]+)"),
   ("([$a-zA-Z_]\\w*(?:\\.<\\w+>)?)", "([$a-zA-Z_]\\w*|[$a-zA-Z_]\\w*\\.<\\w+>)"),
   ("([$a-zA-Z_]\\w*(?:\\.<\\w+>)?|\\*)", "([$a-zA-Z_]\\w*|[$a-zA-Z_]\\w*\\.<\\w+>|\\*)")]

/-- `UNCAPTURED_GROUP_PREFIXES` (from-pygments.py:87-93). -/
def uncapturedGroupMarkers : List String :=
  ["(?:", "(?=", "(?!", "(?<=", "(?<!"]

/-- The token-name loop of `bygroup_translator` (from-pygments.py:98-105):
one name per closure argument that is a pygments token or a `using` callback;
any other argument is skipped without error.  No comparison against the
pattern's group count is made anywhere. -/
def bygroupTokenNames (args : List TokArg) : List String :=
  args.filterMap fun a =>
    match a with
    | .inToken n => some (tokenToRulename n)
    | .usingCb resolved => some (tokenToRulename resolved)
    | .otherArg => none

/-- `bygroup_translator` (from-pygments.py:96-116): collect token names, strip
a leading `^`, apply the fixed rewrites in order, fail on any remaining
unsupported construct, else emit the compound line. -/
def bygroupTranslator (rgx : String) (args : List TokArg) : Except TransErr String :=
  let tokenNames := bygroupTokenNames args
  let r1 := if pyStartsWith rgx "^" = true then pyDrop rgx 1 else rgx
  let r2 := uncapturedGroupTranslators.foldl (fun r p => pyReplace r p.1 p.2) r1
  match uncapturedGroupMarkers.find? (fun m => strContains r2 m) with
  | some m => .error (.unsupportedConstruct r2 m)
  | none => .ok ("(" ++ String.intercalate "," tokenNames ++ ") = `" ++ r2 ++ "`")

/-- The marker-stripping of `regex_to_rule` (from-pygments.py:136-139):
`regex = regex[:-2]`, then one more strip when the remainder still ends in
`.*`. -/
def trimMarker (p : String) : String :=
  let r1 := pyDropRight p 2
  if pyEndsWith r1 ".*" = true then pyDropRight r1 2 else r1

/-- `regex_to_rule` (from-pygments.py:124-146).  The `words` unwrapping
happens upstream (patterns arrive as strings).  `"\\n"` is the two-character
string backslash-`n`, exactly as in the Python source text. -/
def regexToRule (rgx : String) (token : Tok) (action : String) : Except TransErr String :=
  match token with
  | .bygroup args _ => bygroupTranslator rgx args
  | .otherCallable q => .error (.unknownCallable q)
  | .plain name =>
    if rgx = "\\n" ∧ action = "#pop" then .ok (tokenToRulename name ++ " = \x27$\x27")
    else if pyEndsWith rgx "\\n" = true ∨ pyEndsWith rgx ".*" = true then
      if trimMarker rgx = "" then .ok ""
      else .ok (tokenToRulename name ++ " start \x27" ++ quoteSafe (trimMarker rgx) ++ "\x27")
    else .ok (tokenToRulename name ++ " = \x27" ++ quoteSafe rgx ++ "\x27")

/-- `_push_pop_other` (from-pygments.py:149-161): partition a state's rule
list into `#push` triples, exact-`#pop` triples, and everything else, keeping
relative order.  Python would raise `TypeError` on a `default` instance
(`len` of a non-sequence); such entries cannot occur in the states exercised
here and are placed in the other bucket. -/
def pushPopOther : List Elem → List Elem × List Elem × List Elem
  | [] => ([], [], [])
  | e :: rest =>
    let r := pushPopOther rest
    match e with
    | .tripleE rg tk a =>
      if a = "#push" then (.tripleE rg tk a :: r.1, r.2.1, r.2.2)
      else if a = "#pop" then (r.1, .tripleE rg tk a :: r.2.1, r.2.2)
      else (r.1, r.2.1, .tripleE rg tk a :: r.2.2)
    | e => (r.1, r.2.1, e :: r.2.2)

/-- `elem[0]` as used by `group_regexes` (from-pygments.py:164-169): the
pattern of a tuple rule.  For a bare string Python indexing yields its first
character; a `default` instance is not subscriptable — neither shape can
reach `group_regexes`, whose arguments come from the push/pop buckets of
`_push_pop_other` (always triples). -/
def elemFirst : Elem → String
  | .pairE p _ => p
  | .tripleE p _ _ => p
  | .strE s => String.mk (s.data.take 1)
  | .defaultE _ => ""

/-- `group_regexes` (from-pygments.py:164-169): a single rule's pattern
verbatim, else an alternation of the `^`-stripped patterns. -/
def groupRegexes : List Elem → String
  | [e] => elemFirst e
  | es => "(" ++ String.intercalate ")|(" (es.map (fun e => dropCarets (elemFirst e))) ++ ")"

/-- Python `str(token)` for a rule token: the dotted name for a plain token,
the interpreter repr (modelled abstractly) for a callable. -/
def tokStr : Tok → String
  | .plain n => n
  | .bygroup _ reprS => reprS
  | .otherCallable q => q

/-- Signature of the recursive walker entry used by `genruleElem` for
include / nested-state / region recursion: state key, level, optional
explicit rule list. -/
abbrev RecurFn := String → Nat → Option (List Elem) → Except TransErr (List String)

/-- One iteration of the walker loop in `genrulelines`
(from-pygments.py:176-224), producing the lines this element contributes.
Branches in source order: `default` normalization (177-179), include (181-182),
2-tuple (183-185), nested state (186-192), `#push` region compilation
(193-213) — note the recursive call for internal highlighting passes
`elems=others` and lets `state_key` default to `"root"`, exactly as at source
line 212 — `#pop`-prefixed action (214-222), and the `ValueError` fallback. -/
def genruleElem (recur : RecurFn) (lx : Lexer) (sk : String) (lvl : Nat) (e : Elem) :
    Except TransErr (List String) :=
  match (match e with | .defaultE st => Elem.tripleE "" (.plain "Token.Text") st | x => x) with
  | .defaultE _ => .error .unrecognized
  | .strE target => recur target lvl none
  | .pairE rgx token =>
    match regexToRule rgx token "#none" with
    | .error er => .error er
    | .ok rule => .ok [indentStr lvl ++ rule]
  | .tripleE rgx token action =>
    if (List.lookup action lx).isSome = true then
      match regexToRule rgx token "#none" with
      | .error er => .error er
      | .ok rule =>
        match recur action (lvl+1) none with
        | .error er => .error er
        | .ok sub =>
          .ok ([indentStr lvl ++ "# " ++ action ++ " state",
                indentStr lvl ++ "state " ++ rule ++ " begin"] ++ sub ++ [indentStr lvl ++ "end"])
    else if action = "#push" then
      match List.lookup sk lx with
      | none => .error (.missingState sk)
      | some stateElems =>
        let pp := pushPopOther stateElems
        let pushDelim := groupRegexes pp.1
        let popDelim := groupRegexes pp.2.1
        let multiline := pushDelim.data.contains '\n' || popDelim.data.contains '\n'
        let rule := tokenToRulename (tokStr token) ++ " delim \x27" ++ quoteSafe pushDelim
                    ++ "\x27 \x27" ++ quoteSafe popDelim ++ "\x27 "
        let rule := if multiline = true then rule ++ "multiline " else rule
        let rule := rule ++ "nested"
        if pp.2.2.length = 0 then .ok [indentStr lvl ++ rule]
        else
          match recur "root" (lvl+1) (some pp.2.2) with
          | .error er => .error er
          | .ok sub =>
            .ok ([indentStr lvl ++ "# nested " ++ sk ++ " state",
                  indentStr lvl ++ "state " ++ rule ++ " begin"] ++ sub ++ [indentStr lvl ++ "end"])
    else if pyStartsWith action "#pop" = true then
      match regexToRule rgx token action with
      | .error er => .error er
      | .ok rule =>
        if rule = "" then .ok []
        else
          let line := indentStr lvl ++ rule ++ " exit"
          let line := if strContains action ":" = true then line ++ " " ++ afterColon action else line
          .ok [line]
    else .error .unrecognized

/-- The walker loop over a rule list, concatenating each element's lines in
order (from-pygments.py:176-224). -/
def genruleElems (recur : RecurFn) (lx : Lexer) (sk : String) (lvl : Nat) :
    List Elem → Except TransErr (List String)
  | [] => .ok []
  | e :: rest =>
    match genruleElem recur lx sk lvl e with
    | .error er => .error er
    | .ok hd =>
      match genruleElems recur lx sk lvl rest with
      | .error er => .error er
      | .ok tl => .ok (hd ++ tl)

/-- `genrulelines` (from-pygments.py:172-226): fetch the rule list (the
explicit `elems` argument, else `lexer.tokens[state_key]` — `KeyError` on a
missing state), walk it, and drop all-whitespace lines
(`filter(str.strip, lines)`).  The Python function recurses with no depth
cap; the embedding threads an explicit budget, consumed once per call, and
reports `budgetExhausted` when the source would still be recursing. -/
def genrulelines : Nat → Lexer → String → Nat → Option (List Elem) → Except TransErr (List String)
  | 0, _, _, _, _ => .error .budgetExhausted
  | fuel+1, lx, sk, lvl, elems =>
    match (match elems with | some es => some es | none => List.lookup sk lx) with
    | none => .error (.missingState sk)
    | some es =>
      match genruleElems (fun sk2 lvl2 el2 => genrulelines fuel lx sk2 lvl2 el2) lx sk lvl es with
      | .error er => .error er
      | .ok lines => .ok (lines.filter (fun l => !(isBlank l)))

/-- The grammar-file text built by `genlang` (from-pygments.py:229-237):
header comment, the walker's lines for the root state, newline-joined with a
trailing newline.  File writing itself is external. -/
def genlangText (fuel : Nat) (name : String) (lx : Lexer) : Except TransErr String :=
  match genrulelines fuel lx "root" 0 none with
  | .error er => .error er
  | .ok lines =>
    .ok (String.intercalate "\n" (("# autogenerated from pygments for " ++ name) :: lines) ++ "\n")

/-- Per-language metadata consumed by `add_to_lang_map`
(from-pygments.py:240-253). -/
structure LangInfo where
  name : String
  aliases : List String
  filenames : List String
  aliasFilenames : List String
deriving DecidableEq, Repr

/-- A Python dict of strings, as an association list with unique keys.
Setting a key removes any previous binding and appends the new one; the
original position of an overwritten key is irrelevant here because the items
are always sorted before being written out. -/
abbrev PyDict := List (String × String)

/-- Python `m[k] = v`. -/
def dictSet (m : PyDict) (k v : String) : PyDict :=
  m.filter (fun p => p.1 ≠ k) ++ [(k, v)]

/-- `add_to_lang_map` (from-pygments.py:240-253): display name, its lowercase,
every alias and its lowercase, and the post-dot extension (and its lowercase)
of every filename and alias filename, all mapped to the generated base name. -/
def addToLangMap (L : LangInfo) (base : String) (m : PyDict) : PyDict :=
  let m1 := dictSet (dictSet m L.name base) (pyLower L.name) base
  let m2 := L.aliases.foldl (fun acc a => dictSet (dictSet acc a base) (pyLower a) base) m1
  let m3 := L.filenames.foldl
    (fun acc f => dictSet (dictSet acc (extOf f) base) (pyLower (extOf f)) base) m2
  L.aliasFilenames.foldl
    (fun acc f => dictSet (dictSet acc (extOf f) base) (pyLower (extOf f)) base) m3

/-- The keys `add_to_lang_map` binds for one language. -/
def langKeys (L : LangInfo) : List String :=
  [L.name, pyLower L.name]
  ++ L.aliases.flatMap (fun a => [a, pyLower a])
  ++ L.filenames.flatMap (fun f => [extOf f, pyLower (extOf f)])
  ++ L.aliasFilenames.flatMap (fun f => [extOf f, pyLower (extOf f)])

/-- The generated grammar-file base name (from-pygments.py:233-234, 277):
display name lowercased, spaces replaced by hyphens, `.lang` extension;
`os.path.basename` returns it unchanged since it contains no separator. -/
def langBase (L : LangInfo) : String := pyReplace (pyLower L.name) " " "-" ++ ".lang"

/-- The `genlangs` accumulation loop (from-pygments.py:267-280), restricted to
the lookup-table updates: each language's keys are added in processing order. -/
def processLangs (langs : List LangInfo) : PyDict :=
  langs.foldl (fun m L => addToLangMap L (langBase L) m) []

/-- Ordering of `sorted(lang_map.items())` (from-pygments.py:259): Python
sorts the key/value tuples lexicographically, which on a dict's unique keys
is ordering by key. -/
abbrev keyLe (a b : String × String) : Prop := a.1 ≤ b.1

/-- `sorted(lang_map.items())`, realised by insertion sort (any sorted
permutation; keys are unique). -/
def sortPairs (m : PyDict) : PyDict := List.insertionSort keyLe m

instance : IsTotal (String × String) keyLe := ⟨fun a b => le_total a.1 b.1⟩

instance : IsTrans (String × String) keyLe := ⟨fun _ _ _ h1 h2 => le_trans h1 h2⟩

/-- The lines of `write_lang_map` (from-pygments.py:256-264). -/
def writeLangMapLines (m : PyDict) : List String :=
  (sortPairs m).map (fun kv => kv.1 ++ " = " ++ kv.2)

/-- The full lookup-table file text of `write_lang_map`. -/
def writeLangMapText (m : PyDict) : String :=
  String.intercalate "\n" (writeLangMapLines m) ++ "\n"

/-- The translation of a one-state cyclic grammar never completes within any
finite recursion budget: the rendering of Python's unbounded recursion on a
state-reference cycle (see C6). -/
def divergesOn (lx : Lexer) (sk : String) : Prop :=
  ∀ fuel, genrulelines fuel lx sk 0 none = .error TransErr.budgetExhausted

deriving instance DecidableEq for Except

/-- The line `regex_to_rule` produces for a plain (non-callable) token; total
because that path of the source can only return a string, never raise. -/
def plainRuleStr (p t a : String) : String :=
  match regexToRule p (Tok.plain t) a with
  | .ok r => r
  | .error _ => ""

/-- A 2-tuple rule `(pattern, token)` with a plain token. -/
def litElem (pt : String × String) : Elem := Elem.pairE pt.1 (Tok.plain pt.2)

/-- The (possibly all-whitespace) line the walker appends for a 2-tuple rule. -/
def litLine (lvl : Nat) (pt : String × String) : String :=
  indentStr lvl ++ plainRuleStr pt.1 pt.2 "#none"

/-- Recognizer for closure arguments that are plain pygments tokens. -/
def isInToken : TokArg → Bool
  | .inToken _ => true
  | _ => false

/-- Scenario C grammar: a single state holding one `#push` and one `#pop`
rule with brace delimiters. -/
def lexC1 : Lexer :=
  [("root", [Elem.tripleE "\x7b" (Tok.plain "Token.C") "#push",
             Elem.tripleE "\x7d" (Tok.plain "Token.C") "#pop"])]

/-- A one-state cyclic grammar: state `a` includes itself. -/
def lexCyc6 : Lexer := [("a", [Elem.strE "a"])]

/-- Two languages sharing the alias `x`, with distinct base names. -/
def langA8 : LangInfo := ⟨"A", ["x"], [], []⟩

/-- Second language of the shared-alias pair; processed after `langA8`. -/
def langB8 : LangInfo := ⟨"B", ["x"], [], []⟩

/-! Helper lemmas. -/

theorem stringDataAppend (a b : String) : (a ++ b).data = a.data ++ b.data := rfl

theorem isBlank_append (a b : String) : isBlank (a ++ b) = (isBlank a && isBlank b) := by
  simp [isBlank, stringDataAppend, List.all_append]

theorem notBlank_append_right (a b : String) (hb : isBlank b = false) :
    isBlank (a ++ b) = false := by
  rw [isBlank_append, hb, Bool.and_false]

theorem notBlank_append_left (a b : String) (ha : isBlank a = false) :
    isBlank (a ++ b) = false := by
  rw [isBlank_append, ha, Bool.false_and]

theorem ne_empty_of_notBlank (a : String) (h : isBlank a = false) : a ≠ "" := by
  intro he
  rw [he] at h
  exact absurd h (by decide)

theorem replaceAux_single_notin (q : Char) (repl : List Char) (hq : q ∉ repl) (l : List Char) :
    q ∉ replaceAux [q] repl 0 l := by
  induction l with
  | nil => simp [replaceAux]
  | cons c cs ih =>
    simp only [replaceAux]
    split
    · rename_i h
      simp only [List.length_cons, List.length_nil, Nat.zero_add, Nat.sub_self]
      intro hmem
      rcases List.mem_append.mp hmem with h1 | h2
      · exact hq h1
      · exact ih h2
    · rename_i h
      intro hmem
      rcases List.mem_cons.mp hmem with h1 | h2
      · apply h
        refine ⟨by simp, ?_⟩
        subst h1
        simp [List.isPrefixOf]
      · exact ih h2

theorem bygroupTokenNames_length (args : List TokArg) (h : ∀ x ∈ args, isInToken x = true) :
    (bygroupTokenNames args).length = args.length := by
  induction args with
  | nil => rfl
  | cons a rest ih =>
    have ha := h a (List.mem_cons_self a rest)
    have hrest : ∀ x ∈ rest, isInToken x = true := fun x hx => h x (List.mem_cons_of_mem a hx)
    cases a with
    | inToken n =>
      have hcons : bygroupTokenNames (TokArg.inToken n :: rest)
          = tokenToRulename n :: bygroupTokenNames rest := rfl
      rw [hcons, List.length_cons, List.length_cons, ih hrest]
    | usingCb r => simp [isInToken] at ha
    | otherArg => simp [isInToken] at ha

theorem bygroupTranslator_ok_shape {rgx : String} {args : List TokArg} {rule : String}
    (h : bygroupTranslator rgx args = .ok rule) :
    ∃ r2, rule = "(" ++ String.intercalate "," (bygroupTokenNames args) ++ ") = `" ++ r2 ++ "`"
      ∧ ∀ mk ∈ uncapturedGroupMarkers, strContains r2 mk = false := by
  simp only [bygroupTranslator] at h
  split at h
  · exact absurd h (by simp)
  · rename_i heq
    have hrule := (Except.ok.inj h).symm
    refine ⟨_, hrule, ?_⟩
    intro mk hmk
    have := List.find?_eq_none.mp heq mk hmk
    simpa using this

/-! Claim theorems. -/

/-- C2 (corrected): only compound (bygroups) lines are guarded against the
disallowed constructs.  Whenever `bygroup_translator` returns a line, the
pattern embedded in that line contains none of the fixed disallowed-construct
markers: the rewrites ran first and any surviving marker would have raised
`UnsupportedConstruct` instead of emitting. -/
theorem c2_theorem (rgx : String) (args : List TokArg) (rule : String)
    (h : bygroupTranslator rgx args = Except.ok rule) :
    ∃ r2, rule = "(" ++ String.intercalate "," (bygroupTokenNames args) ++ ") = `" ++ r2 ++ "`"
      ∧ ∀ mk ∈ uncapturedGroupMarkers, strContains r2 mk = false :=
  bygroupTranslator_ok_shape h

/-- C2 witness: a concrete compound rule passes the guard and the theorem's
shape holds for it. -/
theorem c2_witness :
    bygroupTranslator "(a)(b)" [TokArg.inToken "Token.A", TokArg.inToken "Token.B"]
      = Except.ok "(Token_A,Token_B) = `(a)(b)`"
    ∧ ∃ r2, "(Token_A,Token_B) = `(a)(b)`"
        = "(" ++ String.intercalate ","
            (bygroupTokenNames [TokArg.inToken "Token.A", TokArg.inToken "Token.B"]) ++ ") = `" ++ r2 ++ "`"
      ∧ ∀ mk ∈ uncapturedGroupMarkers, strContains r2 mk = false :=
  ⟨by decide, c2_theorem "(a)(b)" [TokArg.inToken "Token.A", TokArg.inToken "Token.B"] _ (by decide)⟩

/-- C2 counterexample: a Literal rule whose pattern contains a lookahead is
emitted unchecked — the walker's output line carries the disallowed marker
`(?=`, so the claim's "regardless of rule shape" fails on the code. -/
theorem c2_counterexample :
    genrulelines 1 [("root", [Elem.pairE "(?=x)y" (Tok.plain "Token.A")])] "root" 0 none
      = Except.ok ["Token_A = \x27(?=x)y\x27"]
    ∧ strContains "Token_A = \x27(?=x)y\x27" "(?=" = true := by
  decide

/-- C3 (corrected): `bygroup_translator` performs no arity check at all
between spec items and capturing groups.  When every closure argument is a
plain token, the emitted compound line binds exactly one token name per
argument — the count follows the argument list, not the pattern's top-level
group count. -/
theorem c3_theorem (rgx : String) (args : List TokArg) (h : ∀ x ∈ args, isInToken x = true) :
    (bygroupTokenNames args).length = args.length
    ∧ ∀ rule, bygroupTranslator rgx args = Except.ok rule →
        ∃ r2, rule = "(" ++ String.intercalate "," (bygroupTokenNames args) ++ ") = `" ++ r2 ++ "`" := by
  constructor
  · exact bygroupTokenNames_length args h
  · intro rule hr
    obtain ⟨r2, he, _⟩ := bygroupTranslator_ok_shape hr
    exact ⟨r2, he⟩

/-- C3 witness: the arity equation at a concrete all-token argument list. -/
theorem c3_witness :
    (∀ x ∈ [TokArg.inToken "Token.A", TokArg.inToken "Token.B"], isInToken x = true)
    ∧ (bygroupTokenNames [TokArg.inToken "Token.A", TokArg.inToken "Token.B"]).length
        = [TokArg.inToken "Token.A", TokArg.inToken "Token.B"].length :=
  ⟨by decide, ( c3_theorem "(a)(b)" [TokArg.inToken "Token.A", TokArg.inToken "Token.B"] (by decide)).1⟩

/-- C3 counterexample: two spec items against a one-group pattern resolve
without any error and emit two token names — the claimed requirement
`len(groups) == len(spec.items)` is nowhere enforced. -/
theorem c3_counterexample :
    bygroupTranslator "(a)" [TokArg.inToken "Token.A", TokArg.inToken "Token.B"]
      = Except.ok "(Token_A,Token_B) = `(a)`"
    ∧ (topLevelGroups "(a)").length = 1
    ∧ (bygroupTokenNames [TokArg.inToken "Token.A", TokArg.inToken "Token.B"]).length = 2 := by
  decide

/-- C6 (corrected): the source imposes no recursion ceiling — on a grammar
whose state includes itself, the walker recurses unboundedly: no finite
recursion budget lets the translation complete (and no
`RecursionLimitExceeded`-style error exists in the code; Python would
overflow the interpreter stack). -/
theorem c6_theorem : divergesOn lexCyc6 "a" := by
  intro fuel
  induction fuel with
  | zero => rfl
  | succ n ih =>
    have hl : List.lookup "a" lexCyc6 = some [Elem.strE "a"] := by decide
    simp [genrulelines, genruleElems, genruleElem, hl, ih]

set_option maxRecDepth 8000 in
/-- C6 counterexample: even a 120-deep recursion budget is exhausted by the
one-state cyclic grammar — the translation never fails with a dedicated
recursion-limit error, it simply keeps recursing. -/
theorem c6_counterexample :
    genrulelines 120 lexCyc6 "a" 0 none = Except.error TransErr.budgetExhausted := by
  decide

/-- C9 (confirmed): the translation output is a deterministic function of the
input grammar — equal inputs give byte-identical grammar-file text.  The
embedding is pure by construction, mirroring the source: within one language
the only cross-call state (`CURRENT_LEXER`) is fixed before translation
starts. -/
theorem c9_theorem (fuel : Nat) (n1 n2 : String) (lx1 lx2 : Lexer)
    (h1 : n1 = n2) (h2 : lx1 = lx2) :
    genlangText fuel n1 lx1 = genlangText fuel n2 lx2 := by
  rw [h1, h2]

/-- C9 witness: two runs on the same concrete grammar give equal file text. -/
theorem c9_witness :
    genlangText 1 "Ini" [("root", [Elem.pairE "foo" (Tok.plain "Token.A")])]
      = genlangText 1 "Ini" [("root", [Elem.pairE "foo" (Tok.plain "Token.A")])] :=
  c9_theorem 1 "Ini" "Ini" [("root", [Elem.pairE "foo" (Tok.plain "Token.A")])]
    [("root", [Elem.pairE "foo" (Tok.plain "Token.A")])] rfl rfl

/-- C10 (confirmed): `quote_safe` output never contains a single-quote
character — every occurrence is replaced by the four-character escape
`\x27` — so any pattern or delimiter a rule line embeds between single
quotes cannot terminate the quoting early. -/
theorem c10_theorem (s : String) : (quoteSafe s).data.contains '\x27' = false := by
  have he : (quoteSafe s).data = replaceAux "\x27".data "\\x27".data 0 s.data := rfl
  have hn : ("\x27".data : List Char) = ['\x27'] := by decide
  rw [he, hn]
  have h : '\x27' ∉ replaceAux ['\x27'] "\\x27".data 0 s.data :=
    replaceAux_single_notin '\x27' "\\x27".data (by decide) s.data
  cases hc : (replaceAux ['\x27'] "\\x27".data 0 s.data).contains '\x27' with
  | false => rfl
  | true => exact absurd (by simpa [List.contains] using hc) h

theorem isBlank_indentStr (lvl : Nat) : isBlank (indentStr lvl) = true := by
  induction lvl with
  | zero => rfl
  | succ n ih => simp [indentStr, isBlank_append, ih]; decide

theorem regexToRule_plain_ok (p t a : String) :
    regexToRule p (Tok.plain t) a = Except.ok (plainRuleStr p t a) := by
  obtain ⟨r, hr⟩ : ∃ r, regexToRule p (Tok.plain t) a = Except.ok r := by
    simp only [regexToRule]
    repeat' split
    all_goals exact ⟨_, rfl⟩
  rw [hr]
  simp [plainRuleStr, hr]

theorem genruleElems_lit (recur : RecurFn) (lx : Lexer) (sk : String) (lvl : Nat)
    (rules : List (String × String)) :
    genruleElems recur lx sk lvl (rules.map litElem) = Except.ok (rules.map (litLine lvl)) := by
  induction rules with
  | nil => rfl
  | cons pt rest ih =>
    simp [genruleElems, genruleElem, litElem, litLine, regexToRule_plain_ok, ih, List.map_cons]

/-- C1 (corrected): the Walker delegates to the Region Compiler when it meets
a Push rule, but Pop rules in the same list ARE still processed individually
by the `#pop` branch.  For a state holding exactly one Push and one Pop rule,
the output is exactly TWO lines: the region header (token, enter/exit
delimiters, multiline flag iff a delimiter holds a literal newline, no block)
followed by the Pop rule's own exit line. -/
theorem c1_theorem (fuel lvl : Nat) (lx : Lexer) (s p1 p2 t1 t2 : String)
    (h1 : List.lookup s lx = some [Elem.tripleE p1 (Tok.plain t1) "#push",
                                   Elem.tripleE p2 (Tok.plain t2) "#pop"])
    (h2 : List.lookup "#push" lx = none)
    (h3 : List.lookup "#pop" lx = none)
    (h4 : p2 ≠ "\\n")
    (h5 : pyEndsWith p2 "\\n" = false)
    (h6 : pyEndsWith p2 ".*" = false) :
    genrulelines (fuel+1) lx s lvl none =
      Except.ok [indentStr lvl ++
          ((if (p1.data.contains '\n' || p2.data.contains '\n') = true
            then tokenToRulename t1 ++ " delim \x27" ++ quoteSafe p1 ++ "\x27 \x27"
                 ++ quoteSafe p2 ++ "\x27 " ++ "multiline "
            else tokenToRulename t1 ++ " delim \x27" ++ quoteSafe p1 ++ "\x27 \x27"
                 ++ quoteSafe p2 ++ "\x27 ") ++ "nested"),
        (indentStr lvl ++ (tokenToRulename t2 ++ " = \x27" ++ quoteSafe p2 ++ "\x27")) ++ " exit"] := by
  have hne1 : ("#pop" : String) ≠ "#push" := by decide
  have hsw : pyStartsWith "#pop" "#pop" = true := by decide
  have hcol : strContains "#pop" ":" = false := by decide
  have hg1 : (p2 = "\\n" ∧ ("#pop" : String) = "#pop") = False := eq_false (fun hh => h4 hh.1)
  have hrne : (tokenToRulename t2 ++ " = \x27" ++ quoteSafe p2 ++ "\x27") ≠ "" :=
    ne_empty_of_notBlank _
      (notBlank_append_left _ _ (notBlank_append_left _ _ (notBlank_append_right _ _ (by decide))))
  have hbl2 : isBlank ((indentStr lvl ++ (tokenToRulename t2 ++ " = \x27" ++ quoteSafe p2 ++ "\x27"))
      ++ " exit") = false := notBlank_append_right _ _ (by decide)
  by_cases hm : (p1.data.contains '\n' || p2.data.contains '\n') = true
  · have hmT : ('\n' ∈ p1.data ∨ '\n' ∈ p2.data) = True := eq_true (by simpa using hm)
    have hbl1 : isBlank (indentStr lvl ++
        ((tokenToRulename t1 ++ " delim \x27" ++ quoteSafe p1 ++ "\x27 \x27"
          ++ quoteSafe p2 ++ "\x27 " ++ "multiline ") ++ "nested")) = false :=
      notBlank_append_right _ _ (notBlank_append_right _ _ (by decide))
    simp [genrulelines, genruleElems, genruleElem, h1, h2, h3, hne1, hsw, hcol, hg1, h4, h5, h6,
          hrne, regexToRule, pushPopOther, groupRegexes, elemFirst, tokStr, hm,
          List.filter_cons, hbl1, hbl2, hmT]
  · have hmF : ('\n' ∈ p1.data ∨ '\n' ∈ p2.data) = False := eq_false (by simpa using hm)
    have hbl1 : isBlank (indentStr lvl ++
        ((tokenToRulename t1 ++ " delim \x27" ++ quoteSafe p1 ++ "\x27 \x27"
          ++ quoteSafe p2 ++ "\x27 ") ++ "nested")) = false :=
      notBlank_append_right _ _ (notBlank_append_right _ _ (by decide))
    simp [genrulelines, genruleElems, genruleElem, h1, h2, h3, hne1, hsw, hcol, hg1, h4, h5, h6,
          hrne, regexToRule, pushPopOther, groupRegexes, elemFirst, tokStr, hm,
          List.filter_cons, hbl1, hbl2, hmF]

/-- C1 witness: scenario C evaluated through the theorem — the brace region
state yields the region header and the exit line. -/
theorem c1_witness :
    (List.lookup "root" lexC1 = some [Elem.tripleE "\x7b" (Tok.plain "Token.C") "#push",
                                      Elem.tripleE "\x7d" (Tok.plain "Token.C") "#pop"])
    ∧ genrulelines 1 lexC1 "root" 0 none
        = Except.ok ["Token_C delim \x27\x7b\x27 \x27\x7d\x27 nested",
                     "Token_C = \x27\x7d\x27 exit"] := by
  refine ⟨by decide, ?_⟩
  have h := c1_theorem 0 0 lexC1 "root" "\x7b" "\x7d" "Token.C" "Token.C"
    (by decide) (by decide) (by decide) (by decide) (by decide) (by decide)
  rw [h]
  decide

/-- C1 counterexample: scenario C — a state with only `Push("{", TokenC)` and
`Pop("}", TokenC, "#pop")` — produces TWO output lines, not the claimed single
region-header line: the Pop rule is also processed individually into
`Token_C = '}' exit`. -/
theorem c1_counterexample :
    genrulelines 2 lexC1 "root" 0 none
      = Except.ok ["Token_C delim \x27\x7b\x27 \x27\x7d\x27 nested",
                   "Token_C = \x27\x7d\x27 exit"] := by
  decide

/-- C4 (confirmed): a Literal rule whose pattern ends in the `\n` marker or
the `.*` wildcard has the marker stripped (plus one more trailing `.*`); a
non-empty remainder gives exactly one multi-line-token start line carrying
the token and the trimmed prefix, an empty remainder gives no line at all.
In particular `Literal(".*\n", TokenB)` emits nothing and
`Literal("prefix.*\n", TokenB)` emits one start line with `prefix`. -/
theorem c4_theorem (fuel lvl : Nat) (lx : Lexer) (s p t : String)
    (h1 : List.lookup s lx = some [Elem.pairE p (Tok.plain t)])
    (h2 : pyEndsWith p "\\n" = true ∨ pyEndsWith p ".*" = true) :
    (genrulelines (fuel+1) lx s lvl none =
      Except.ok (if trimMarker p = "" then []
                 else [indentStr lvl ++ (tokenToRulename t ++ " start \x27"
                       ++ quoteSafe (trimMarker p) ++ "\x27")]))
    ∧ genrulelines 1 [("root", [Elem.pairE ".*\\n" (Tok.plain "Token.B")])] "root" 0 none
        = Except.ok []
    ∧ genrulelines 1 [("root", [Elem.pairE "prefix.*\\n" (Tok.plain "Token.B")])] "root" 0 none
        = Except.ok ["Token_B start \x27prefix\x27"] := by
  refine ⟨?_, by decide, by decide⟩
  have hne : ("#none" : String) ≠ "#pop" := by decide
  have hg1 : (p = "\\n" ∧ ("#none" : String) = "#pop") = False := eq_false (fun hh => hne hh.2)
  have h2T : (pyEndsWith p "\\n" = true ∨ pyEndsWith p ".*" = true) = True := eq_true h2
  by_cases hz : trimMarker p = ""
  · simp [genrulelines, h1, genruleElems, genruleElem, regexToRule, hg1, h2T, hz,
          List.filter_cons, isBlank_append, isBlank_indentStr]
  · have hblank : isBlank (indentStr lvl ++ (tokenToRulename t ++ " start \x27"
        ++ quoteSafe (trimMarker p) ++ "\x27")) = false := by
      apply notBlank_append_right
      apply notBlank_append_left
      apply notBlank_append_left
      exact notBlank_append_right _ _ (by decide)
    simp [genrulelines, h1, genruleElems, genruleElem, regexToRule, hg1, h2T, hz,
          List.filter_cons, hblank]

/-- C4 witness: the theorem applied to `Literal("prefix.*\n", TokenB)`. -/
theorem c4_witness :
    (List.lookup "root" [("root", [Elem.pairE "prefix.*\\n" (Tok.plain "Token.B")])]
       = some [Elem.pairE "prefix.*\\n" (Tok.plain "Token.B")])
    ∧ genrulelines 1 [("root", [Elem.pairE "prefix.*\\n" (Tok.plain "Token.B")])] "root" 0 none
       = Except.ok ["Token_B start \x27prefix\x27"] := by
  refine ⟨by decide, ?_⟩
  have h := (c4_theorem 0 0 [("root", [Elem.pairE "prefix.*\\n" (Tok.plain "Token.B")])]
    "root" "prefix.*\\n" "Token.B" (by decide) (Or.inl (by decide))).1
  rw [h]
  decide

/-- C5 (confirmed): a rule whose pattern is exactly the line-end marker `\n`
and whose action is `#pop` makes the Walker emit exactly one line, the
end-of-line-anchored exit `<tokenName> = '$' exit`. -/
theorem c5_theorem (fuel lvl : Nat) (lx : Lexer) (s t : String)
    (h1 : List.lookup s lx = some [Elem.tripleE "\\n" (Tok.plain t) "#pop"])
    (h2 : List.lookup "#pop" lx = none) :
    genrulelines (fuel+1) lx s lvl none
      = Except.ok [(indentStr lvl ++ (tokenToRulename t ++ " = \x27$\x27")) ++ " exit"] := by
  have hsw : pyStartsWith "#pop" "#pop" = true := by decide
  have hne : ("#pop" : String) ≠ "#push" := by decide
  have hcol : strContains "#pop" ":" = false := by decide
  have hrne : (tokenToRulename t ++ " = \x27$\x27") ≠ "" :=
    ne_empty_of_notBlank _ (notBlank_append_right _ _ (by decide))
  have hblank : isBlank ((indentStr lvl ++ (tokenToRulename t ++ " = \x27$\x27")) ++ " exit") = false :=
    notBlank_append_right _ _ (by decide)
  simp [genrulelines, h1, genruleElems, genruleElem, h2, hne, hsw, regexToRule, hcol, hrne,
        List.filter_cons, hblank]

/-- C5 witness: the theorem applied to a concrete popping newline rule. -/
theorem c5_witness :
    (List.lookup "root" [("root", [Elem.tripleE "\\n" (Tok.plain "Token.D") "#pop"])]
       = some [Elem.tripleE "\\n" (Tok.plain "Token.D") "#pop"])
    ∧ genrulelines 1 [("root", [Elem.tripleE "\\n" (Tok.plain "Token.D") "#pop"])] "root" 0 none
       = Except.ok ["Token_D = \x27$\x27 exit"] := by
  refine ⟨by decide, ?_⟩
  have h := c5_theorem 0 0 [("root", [Elem.tripleE "\\n" (Tok.plain "Token.D") "#pop"])]
    "root" "Token.D" (by decide) (by decide)
  rw [h]
  decide

/-- C7 (confirmed): for a state holding only Literal rules, the Walker's
output is exactly the per-rule lines in source order with the all-whitespace
ones dropped — a sublist of the per-rule line sequence, so the map from rule
index to output-line index is strictly increasing. -/
theorem c7_theorem (fuel lvl : Nat) (lx : Lexer) (s : String) (rules : List (String × String))
    (h : List.lookup s lx = some (rules.map litElem)) :
    genrulelines (fuel+1) lx s lvl none
      = Except.ok ((rules.map (litLine lvl)).filter (fun l => !(isBlank l)))
    ∧ List.Sublist ((rules.map (litLine lvl)).filter (fun l => !(isBlank l)))
        (rules.map (litLine lvl)) :=
  ⟨by simp [genrulelines, h, genruleElems_lit], List.filter_sublist _⟩

/-- C7 witness: scenario A — a single Literal rule gives exactly its line. -/
theorem c7_witness :
    (List.lookup "root" [("root", [Elem.pairE "foo" (Tok.plain "Token.A")])]
       = some ([("foo", "Token.A")].map litElem))
    ∧ genrulelines 1 [("root", [Elem.pairE "foo" (Tok.plain "Token.A")])] "root" 0 none
       = Except.ok ["Token_A = \x27foo\x27"] := by
  refine ⟨by decide, ?_⟩
  have h := (c7_theorem 0 0 [("root", [Elem.pairE "foo" (Tok.plain "Token.A")])]
    "root" [("foo", "Token.A")] (by decide)).1
  rw [h]
  decide

theorem lookup_dictSet_self (m : PyDict) (k v : String) :
    List.lookup k (dictSet m k v) = some v := by
  induction m with
  | nil => simp [dictSet, List.lookup]
  | cons p rest ih =>
    by_cases hp : p.1 = k
    · simpa [dictSet, List.filter_cons, hp] using ih
    · have hb : (k == p.1) = false := beq_eq_false_iff_ne.mpr (Ne.symm hp)
      simpa [dictSet, List.filter_cons, hp, List.lookup, hb] using ih

theorem lookup_dictSet_ne (m : PyDict) (k k2 v : String) (h : k2 ≠ k) :
    List.lookup k2 (dictSet m k v) = List.lookup k2 m := by
  have hb : (k2 == k) = false := beq_eq_false_iff_ne.mpr h
  induction m with
  | nil => simp [dictSet, List.lookup, hb]
  | cons p rest ih =>
    by_cases hp : p.1 = k
    · have hb2 : (k2 == p.1) = false := beq_eq_false_iff_ne.mpr (hp ▸ h)
      simpa [dictSet, List.filter_cons, hp, List.lookup, hb2, hb] using ih
    · by_cases hk2 : k2 = p.1
      · simp [dictSet, List.filter_cons, hp, List.lookup, hk2]
      · have hb2 : (k2 == p.1) = false := beq_eq_false_iff_ne.mpr hk2
        simpa [dictSet, List.filter_cons, hp, List.lookup, hb2] using ih

theorem lookup_foldl_pairs {α : Type} (g : α → String) (b : String) (l : List α)
    (m : PyDict) (k : String) :
    List.lookup k (l.foldl (fun acc x => dictSet (dictSet acc (g x) b) (pyLower (g x)) b) m)
    = if k ∈ l.flatMap (fun x => [g x, pyLower (g x)]) then some b else List.lookup k m := by
  induction l generalizing m with
  | nil => simp
  | cons x rest ih =>
    rw [List.foldl_cons, ih]
    by_cases h1 : k ∈ rest.flatMap (fun x => [g x, pyLower (g x)])
    · simp [h1]
    · by_cases h2 : k = pyLower (g x)
      · simp [h1, h2, lookup_dictSet_self]
      · by_cases h3 : k = g x
        · rw [if_neg h1, lookup_dictSet_ne _ _ _ _ h2, h3, lookup_dictSet_self]
          simp [h3]
        · rw [if_neg h1, lookup_dictSet_ne _ _ _ _ h2, lookup_dictSet_ne _ _ _ _ h3]
          simp [h1, h2, h3]

theorem lookup_foldl_alias (b : String) (l : List String) (m : PyDict) (k : String) :
    List.lookup k (l.foldl (fun acc a => dictSet (dictSet acc a b) (pyLower a) b) m)
    = if k ∈ l.flatMap (fun a => [a, pyLower a]) then some b else List.lookup k m := by
  induction l generalizing m with
  | nil => simp
  | cons x rest ih =>
    rw [List.foldl_cons, ih]
    by_cases h1 : k ∈ rest.flatMap (fun a => [a, pyLower a])
    · simp [h1]
    · by_cases h2 : k = pyLower x
      · simp [h1, h2, lookup_dictSet_self]
      · by_cases h3 : k = x
        · rw [if_neg h1, lookup_dictSet_ne _ _ _ _ h2, h3, lookup_dictSet_self]
          simp [h3]
        · rw [if_neg h1, lookup_dictSet_ne _ _ _ _ h2, lookup_dictSet_ne _ _ _ _ h3]
          simp [h1, h2, h3]

theorem lookup_addToLangMap (L : LangInfo) (b : String) (m : PyDict) (k : String) :
    List.lookup k (addToLangMap L b m)
    = if k ∈ langKeys L then some b else List.lookup k m := by
  unfold addToLangMap
  rw [lookup_foldl_pairs extOf, lookup_foldl_pairs extOf, lookup_foldl_alias]
  by_cases hA : k ∈ L.aliasFilenames.flatMap (fun f => [extOf f, pyLower (extOf f)])
  · rw [if_pos hA, if_pos (by simp only [langKeys, List.mem_append, List.mem_cons]; tauto)]
  · rw [if_neg hA]
    by_cases hF : k ∈ L.filenames.flatMap (fun f => [extOf f, pyLower (extOf f)])
    · rw [if_pos hF, if_pos (by simp only [langKeys, List.mem_append, List.mem_cons]; tauto)]
    · rw [if_neg hF]
      by_cases hAl : k ∈ L.aliases.flatMap (fun a => [a, pyLower a])
      · rw [if_pos hAl, if_pos (by simp only [langKeys, List.mem_append, List.mem_cons]; tauto)]
      · rw [if_neg hAl]
        by_cases h2 : k = pyLower L.name
        · rw [h2, lookup_dictSet_self,
              if_pos (by simp only [langKeys, List.mem_append, List.mem_cons]; tauto)]
        · rw [lookup_dictSet_ne _ _ _ _ h2]
          by_cases h3 : k = L.name
          · rw [h3, lookup_dictSet_self,
                if_pos (by simp only [langKeys, List.mem_append, List.mem_cons]; tauto)]
          · rw [lookup_dictSet_ne _ _ _ _ h3,
                if_neg (fun hmem => by
                  simp only [langKeys, List.mem_append, List.mem_cons,
                             List.not_mem_nil, or_false] at hmem
                  tauto)]

theorem lookup_foldLangs_notin (l : List LangInfo) (m : PyDict) (k : String)
    (h : ∀ L2 ∈ l, k ∉ langKeys L2) :
    List.lookup k (l.foldl (fun acc L => addToLangMap L (langBase L) acc) m)
    = List.lookup k m := by
  induction l generalizing m with
  | nil => rfl
  | cons L rest ih =>
    rw [List.foldl_cons, ih _ (fun L2 hL2 => h L2 (List.mem_cons_of_mem _ hL2)),
        lookup_addToLangMap, if_neg (h L (List.mem_cons_self _ _))]

theorem lookup_foldLangs_isSome (l : List LangInfo) (m : PyDict) (k : String)
    (h : (List.lookup k m).isSome = true) :
    (List.lookup k (l.foldl (fun acc L => addToLangMap L (langBase L) acc) m)).isSome = true := by
  induction l generalizing m with
  | nil => exact h
  | cons L rest ih =>
    rw [List.foldl_cons]
    apply ih
    rw [lookup_addToLangMap]
    split
    · rfl
    · exact h

/-- C8 (corrected): after processing a sequence of languages, (1) every key of
every processed language — display name, lowercased name, each alias and its
lowercase, each extension and its lowercase — is present in the lookup table;
(2) such a key maps to the base name of the LAST processed language
contributing it (so to the language's own base name exactly when no later
language shares the key — later languages overwrite colliding keys); and
(3) the emitted table lines are the key-sorted items rendered as
`key = base`. -/
theorem c8_theorem :
    (∀ (langs : List LangInfo) (L : LangInfo) (k : String),
        L ∈ langs → k ∈ langKeys L → (List.lookup k (processLangs langs)).isSome = true)
    ∧ (∀ (l1 l2 : List LangInfo) (L : LangInfo) (k : String),
        k ∈ langKeys L → (∀ L2 ∈ l2, k ∉ langKeys L2) →
        List.lookup k (processLangs (l1 ++ L :: l2)) = some (langBase L))
    ∧ (∀ m : PyDict, List.Sorted keyLe (sortPairs m)
        ∧ writeLangMapLines m = (sortPairs m).map (fun kv => kv.1 ++ " = " ++ kv.2)) := by
  refine ⟨?_, ?_, ?_⟩
  · intro langs L k hL hk
    obtain ⟨l1, l2, rfl⟩ := List.append_of_mem hL
    unfold processLangs
    rw [List.foldl_append, List.foldl_cons]
    apply lookup_foldLangs_isSome
    rw [lookup_addToLangMap, if_pos hk]
    rfl
  · intro l1 l2 L k hk h2
    unfold processLangs
    rw [List.foldl_append, List.foldl_cons, lookup_foldLangs_notin _ _ _ h2,
        lookup_addToLangMap, if_pos hk]
  · intro m
    exact ⟨List.sorted_insertionSort keyLe m, rfl⟩

/-- C8 witness: a processed language's alias is present in the table. -/
theorem c8_witness :
    (langA8 ∈ [langA8]) ∧ "x" ∈ langKeys langA8
    ∧ (List.lookup "x" (processLangs [langA8])).isSome = true :=
  ⟨by decide, by decide, c8_theorem.1 [langA8] langA8 "x" (by decide) (by decide)⟩

/-- C8 counterexample: two languages share the alias `x`; after processing
both, the table maps `x` to the later language's base name `b.lang`, not to
the first language's `a.lang` — so "every processed language's keys map to
that language's base name" fails on colliding keys. -/
theorem c8_counterexample :
    (langA8 ∈ [langA8, langB8])
    ∧ "x" ∈ langKeys langA8
    ∧ langBase langA8 = "a.lang"
    ∧ List.lookup "x" (processLangs [langA8, langB8]) = some "b.lang"
    ∧ ¬ List.lookup "x" (processLangs [langA8, langB8]) = some (langBase langA8) := by
  decide
